import Mathlib

/-!
Shallow embedding of the craftamplify event discovery pipeline
(supabase/functions/scan-local-events/index.ts and the ingest-raw-events
edge function).

Modelling conventions:
* Text is `List Char` (abbreviated `Str`); JavaScript string literals are
  written as `"...".data`.
* JavaScript `Date` values are modelled as proleptic-Gregorian civil dates
  at UTC midnight (`JSDate`), with the constructor overflow normalization of
  `new Date(year, month, day)` made explicit (`mkJSDate`).
* Host calls with no algorithmic content in this repository are modelled as
  explicit parameters: the outcome of the external completion service is a
  `GateOutcome` / `EnrichOutcome` value, the host date-string parser used on
  `pubDate` hints is a `Str → Option JSDate` parameter, and storage-write
  success is a boolean-valued parameter.
* All recursion is structural (fuel-based where the source scans strings),
  so every definition evaluates by `decide` / `rfl`.
-/

abbrev Str := List Char

/-- Digit test matching the regex class `\d` (ASCII). -/
def isDigitCh (c : Char) : Bool := '0' ≤ c && c ≤ '9'

/-- Whitespace test matching the regex class `\s` (common ASCII whitespace). -/
def isWSCh (c : Char) : Bool := c = ' ' || c = '\t' || c = '\n' || c = '\r'

/-- ASCII lower-casing, modelling `String.prototype.toLowerCase` on the
inputs that occur here. -/
def asciiLower (c : Char) : Char :=
  if 'A' ≤ c && c ≤ 'Z' then Char.ofNat (c.toNat + 32) else c

def lowerStr (s : Str) : Str := s.map asciiLower

/-- Value of a run of decimal digits, modelling `parseInt` on a digit run. -/
def digitsVal (s : Str) : Nat := s.foldl (fun a c => a * 10 + (c.toNat - 48)) 0

/-- Civil date as exposed by the JavaScript getters `getFullYear`,
`getMonth` (0-based) and `getDate` (1-based). -/
structure JSDate where
  year : Int
  month : Int
  day : Int
deriving DecidableEq, Repr

/-- Day number of a civil date (proleptic Gregorian, month 1-based),
following the standard era-based algorithm; day 0 is 1970-01-01. -/
def daysFromCivil (y m d : Int) : Int :=
  let y2 := if m ≤ 2 then y - 1 else y
  let era := y2.fdiv 400
  let yoe := y2 - era * 400
  let mp := if m > 2 then m - 3 else m + 9
  let doy := (153 * mp + 2).fdiv 5 + d - 1
  let doe := yoe * 365 + yoe.fdiv 4 - yoe.fdiv 100 + doy
  era * 146097 + doe - 719468

/-- Civil date of a day number (inverse of `daysFromCivil`); the returned
month is 0-based to match `getMonth`. -/
def civilFromDays (z0 : Int) : JSDate :=
  let z := z0 + 719468
  let era := z.fdiv 146097
  let doe := z - era * 146097
  let yoe := (doe - doe.fdiv 1460 + doe.fdiv 36524 - doe.fdiv 146096).fdiv 365
  let y := yoe + era * 400
  let doy := doe - (365 * yoe + yoe.fdiv 4 - yoe.fdiv 100)
  let mp := (5 * doy + 2).fdiv 153
  let d := doy - (153 * mp + 2).fdiv 5 + 1
  let m := if mp < 10 then mp + 3 else mp - 9
  ⟨if m ≤ 2 then y + 1 else y, m - 1, d⟩

/-- The date produced by `new Date(year, month, day)`: month overflow is
folded into the year and day overflow rolls across month boundaries, exactly
as the ECMAScript `MakeDay` operation does. -/
def mkJSDate (y m d : Int) : JSDate :=
  let ym := y * 12 + m
  civilFromDays (daysFromCivil (ym.fdiv 12) (ym.fmod 12 + 1) 1 + (d - 1))

/-- Timestamp of a `JSDate` at day granularity (all modelled values are UTC
midnights, so comparing day numbers models comparing `Date` values). -/
def toDays (dt : JSDate) : Int := daysFromCivil dt.year (dt.month + 1) dt.day

def addDays (dt : JSDate) (n : Int) : JSDate := civilFromDays (toDays dt + n)

/-! ### Date pattern matching (extractEventDate, index.ts lines 59-150)

Each of the six regex shapes in `datePatterns` is implemented as an
executable matcher that attempts a match at the head of the text and
returns the capture groups (already combined into the `(month, day, year)`
arguments handed to the `Date` constructor, following the deterministic
branch the loop body takes for that pattern shape) together with the text
after the match.  A fuel-driven scanner reproduces `matchAll` semantics:
left-to-right scan, resuming after the end of each match. -/

/-- Arguments handed to `new Date(year, monthIndex, day)` for one regex
match; `month` is 0-based as in the source (`parseInt(match[1]) - 1` for
numeric patterns, `findIndex` over `monthNames` for name patterns). -/
structure DateCand where
  month : Int
  day : Int
  year : Int
deriving DecidableEq, Repr

/-- Maximal run of decimal digits at the head of the text. -/
def takeDigits : Str → Str × Str
  | [] => ([], [])
  | c :: cs =>
    if isDigitCh c then
      let r := takeDigits cs
      (c :: r.1, r.2)
    else ([], c :: cs)

/-- Maximal run of whitespace at the head of the text. -/
def takeWS : Str → Str × Str
  | [] => ([], [])
  | c :: cs =>
    if isWSCh c then
      let r := takeWS cs
      (c :: r.1, r.2)
    else ([], c :: cs)

/-- Separator class `[\/\-]` of the numeric date patterns. -/
def isSep (c : Char) : Bool := c = '/' || c = '-'

/-- Pattern 1: `(\d{1,2})[\/\-](\d{1,2})[\/\-](\d{4})`.  The greedy
`\d{1,2}` with a following separator is equivalent to taking the maximal
digit run and requiring its length to be 1 or 2; `(\d{4})` takes the first
four digits of the following run. -/
def tryNumericFull (s : Str) : Option (DateCand × Str) :=
  let p1 := takeDigits s
  if p1.1.length = 0 || 2 < p1.1.length then none else
  match p1.2 with
  | [] => none
  | c :: r2 =>
    if isSep c then
      let p2 := takeDigits r2
      if p2.1.length = 0 || 2 < p2.1.length then none else
      match p2.2 with
      | [] => none
      | c2 :: r4 =>
        if isSep c2 then
          let py := takeDigits r4
          if 4 ≤ py.1.length then
            some (⟨(digitsVal p1.1 : Int) - 1, (digitsVal p2.1 : Int),
                   (digitsVal (py.1.take 4) : Int)⟩, py.1.drop 4 ++ py.2)
          else none
        else none
    else none

/-- Pattern 2: `(\d{1,2})[\/\-](\d{1,2})(?!\d)`; the missing year defaults
to the current year. -/
def tryNumericShort (cy : Int) (s : Str) : Option (DateCand × Str) :=
  let p1 := takeDigits s
  if p1.1.length = 0 || 2 < p1.1.length then none else
  match p1.2 with
  | [] => none
  | c :: r2 =>
    if isSep c then
      let p2 := takeDigits r2
      if p2.1.length = 0 || 2 < p2.1.length then none else
      some (⟨(digitsVal p1.1 : Int) - 1, (digitsVal p2.1 : Int), cy⟩, p2.2)
    else none

def monthNames : List Str :=
  ["january".data, "february".data, "march".data, "april".data, "may".data,
   "june".data, "july".data, "august".data, "september".data, "october".data,
   "november".data, "december".data]

def strStartsWith : Str → Str → Bool
  | [], _ => true
  | _ :: _, [] => false
  | p :: ps, c :: cs => p = c && strStartsWith ps cs

/-- First month name (in `monthNames` order, matching regex alternation
order) that occurs at the head of the text; no month name is a substring of
another, so `findIndex` with `includes` in the source is index lookup. -/
def matchMonthAux : Nat → List Str → Str → Option (Nat × Str)
  | _, [], _ => none
  | i, n :: ns, s =>
    if strStartsWith n s then some (i, s.drop n.length)
    else matchMonthAux (i + 1) ns s

def matchMonth (s : Str) : Option (Nat × Str) := matchMonthAux 0 monthNames s

/-- Tail `,?\s*(\d{4})` of pattern 3, after the day digits.  The optional
comma and the whitespace star are deterministic here because the follow-up
is a digit run. -/
def tryMDYTail (r : Str) : Option (Int × Str) :=
  let r1 := match r with
    | ',' :: t => t
    | _ => r
  let r2 := (takeWS r1).2
  let py := takeDigits r2
  if 4 ≤ py.1.length then
    some ((digitsVal (py.1.take 4) : Int), py.1.drop 4 ++ py.2)
  else none

/-- Pattern 3: `(month)\s+(\d{1,2}),?\s*(\d{4})` with the greedy backtrack
on the day group (two digits first, then one). -/
def tryMonthDDYYYY (s : Str) : Option (DateCand × Str) :=
  match matchMonth s with
  | none => none
  | some (mi, r1) =>
    let pw := takeWS r1
    if pw.1.length = 0 then none else
    let pd := takeDigits pw.2
    if pd.1.length = 0 then none else
    let try2 : Option (DateCand × Str) :=
      if 2 ≤ pd.1.length then
        match tryMDYTail (pd.1.drop 2 ++ pd.2) with
        | some (y, rest) => some (⟨(mi : Int), (digitsVal (pd.1.take 2) : Int), y⟩, rest)
        | none => none
      else none
    match try2 with
    | some r => some r
    | none =>
      match tryMDYTail (pd.1.drop 1 ++ pd.2) with
      | some (y, rest) => some (⟨(mi : Int), (digitsVal (pd.1.take 1) : Int), y⟩, rest)
      | none => none

/-- Pattern 4: `(month)\s+(\d{1,2})(?!\d)`; year defaults to current. -/
def tryMonthDD (cy : Int) (s : Str) : Option (DateCand × Str) :=
  match matchMonth s with
  | none => none
  | some (mi, r1) =>
    let pw := takeWS r1
    if pw.1.length = 0 then none else
    let pd := takeDigits pw.2
    if pd.1.length = 0 || 2 < pd.1.length then none else
    some (⟨(mi : Int), (digitsVal pd.1 : Int), cy⟩, pd.2)

/-- Pattern 5: `(\d{1,2})\s+(month)\s+(\d{4})`. -/
def tryDDMonthYYYY (s : Str) : Option (DateCand × Str) :=
  let pd := takeDigits s
  if pd.1.length = 0 || 2 < pd.1.length then none else
  let pw := takeWS pd.2
  if pw.1.length = 0 then none else
  match matchMonth pw.2 with
  | none => none
  | some (mi, r1) =>
    let pw2 := takeWS r1
    if pw2.1.length = 0 then none else
    let py := takeDigits pw2.2
    if 4 ≤ py.1.length then
      some (⟨(mi : Int), (digitsVal pd.1 : Int), (digitsVal (py.1.take 4) : Int)⟩,
            py.1.drop 4 ++ py.2)
    else none

/-- Pattern 6: `(\d{1,2})\s+(month)(?!\s+\d{4})`; the negative lookahead is
checked without consuming input, and the match ends after the month name. -/
def tryDDMonth (cy : Int) (s : Str) : Option (DateCand × Str) :=
  let pd := takeDigits s
  if pd.1.length = 0 || 2 < pd.1.length then none else
  let pw := takeWS pd.2
  if pw.1.length = 0 then none else
  match matchMonth pw.2 with
  | none => none
  | some (mi, r1) =>
    let la1 := takeWS r1
    let la2 := takeDigits la1.2
    if 1 ≤ la1.1.length && 4 ≤ la2.1.length then none
    else some (⟨(mi : Int), (digitsVal pd.1 : Int), cy⟩, r1)

/-- Fuel-driven `matchAll` scan: left to right, resuming after each match.
Every matcher consumes at least one character, so `s.length` fuel is always
enough. -/
def scanAllF (tryM : Str → Option (DateCand × Str)) : Nat → Str → List DateCand
  | 0, _ => []
  | _ + 1, [] => []
  | n + 1, c :: cs =>
    match tryM (c :: cs) with
    | some (cand, rest) => cand :: scanAllF tryM n rest
    | none => scanAllF tryM n cs

def scanAll (tryM : Str → Option (DateCand × Str)) (s : Str) : List DateCand :=
  scanAllF tryM s.length s

/-- Validation applied to each constructed date (index.ts lines 124-128):
`!isNaN` never fails for the argument ranges that occur (modelled as always
true), the year must lie in `[currentYear, currentYear + 2]`
(`nextYear + 1 = currentYear + 2` in the source), the month getter in
`[0, 11]` and the day getter in `[1, 31]`. -/
def isValidEventDate (currentYear : Int) (d : JSDate) : Bool :=
  decide (currentYear ≤ d.year) && decide (d.year ≤ currentYear + 2) &&
  decide (0 ≤ d.month) && decide (d.month ≤ 11) &&
  decide (1 ≤ d.day) && decide (d.day ≤ 31)

/-- First match of one pattern that survives validation. -/
def firstValidDate (cy : Int) : List DateCand → Option JSDate
  | [] => none
  | c :: cs =>
    let d := mkJSDate c.year c.month c.day
    if isValidEventDate cy d then some d else firstValidDate cy cs

/-- All matches of the six patterns, in source order. -/
def datePatternMatches (cy : Int) (text : Str) : List (List DateCand) :=
  [scanAll tryNumericFull text,
   scanAll (tryNumericShort cy) text,
   scanAll tryMonthDDYYYY text,
   scanAll (tryMonthDD cy) text,
   scanAll tryDDMonthYYYY text,
   scanAll (tryDDMonth cy) text]

def firstValidAcross (cy : Int) : List (List DateCand) → Option JSDate
  | [] => none
  | l :: ls =>
    match firstValidDate cy l with
    | some d => some d
    | none => firstValidAcross cy ls

/-- In-text part of the date heuristic: first validated match over the
ordered pattern list. -/
def findTextDate (cy : Int) (text : Str) : Option JSDate :=
  firstValidAcross cy (datePatternMatches cy text)

/-- Date heuristic `extractEventDate(title, description, pubDate)`.
`cy` models `new Date().getFullYear()`.  `pubParsed` models the host call
`new Date(pubDate)` on the published-date hint: `none` stands for an absent
or empty hint or an unparsable string (`isNaN` result). -/
def extractEventDate (cy : Int) (title description : Str)
    (pubParsed : Option JSDate) : Option JSDate :=
  let text := lowerStr (title ++ ' ' :: description)
  match findTextDate cy text with
  | some d => some d
  | none =>
    match pubParsed with
    | some d => if cy - 1 ≤ d.year then some d else none
    | none => none

/-! ### Markup extractor (parseXML, index.ts lines 162-215)

The tolerant block scan is reproduced with executable matchers: item blocks
are located by `<item[^>]*>([\s\S]*?)<\/item>` semantics (first `>` closes
the opening tag, first `</item>` closes the block), and each field is the
first full match of its regex inside the block.  All regexes carry the `i`
flag, so pattern literals are compared case-insensitively. -/

/-- Chars after the first `>` (the `[^>]*>` step of a tag pattern). -/
def findGt : Str → Option Str
  | [] => none
  | c :: cs => if c = '>' then some cs else findGt cs

/-- Case-insensitive prefix test; the pattern is given in lower case. -/
def strStartsWithCI : Str → Str → Bool
  | [], _ => true
  | _ :: _, [] => false
  | p :: ps, c :: cs => p = asciiLower c && strStartsWithCI ps cs

/-- First case-insensitive occurrence of `pat`, split into the text before
it and the text after it (lazy `[\s\S]*?pat` semantics). -/
def findCIF (pat : Str) : Nat → Str → Option (Str × Str)
  | 0, s => if strStartsWithCI pat s then some ([], s.drop pat.length) else none
  | n + 1, s =>
    if strStartsWithCI pat s then some ([], s.drop pat.length)
    else
      match s with
      | [] => none
      | c :: cs =>
        match findCIF pat n cs with
        | some r => some (c :: r.1, r.2)
        | none => none

def findCI (pat s : Str) : Option (Str × Str) := findCIF pat s.length s

/-- One `<item[^>]*>([\s\S]*?)<\/item>` match at the head of the text:
returns the block content and the text after the closing tag. -/
def tryItemBlock (s : Str) : Option (Str × Str) :=
  if strStartsWithCI "<item".data s then
    match findGt (s.drop 5) with
    | none => none
    | some r2 => findCI "</item>".data r2
  else none

def extractItemsF : Nat → Str → List Str
  | 0, _ => []
  | _ + 1, [] => []
  | n + 1, c :: cs =>
    match tryItemBlock (c :: cs) with
    | some (content, rest) => content :: extractItemsF n rest
    | none => extractItemsF n cs

/-- All item blocks of the document, in order (`matchAll` over the item
regex). -/
def extractItems (s : Str) : List Str := extractItemsF s.length s

/-- Newline class excluded by the regex `.` (dotAll is not set on the
title/link/pubDate/guid field regexes). -/
def isNL (c : Char) : Bool := c = '\n' || c = '\r'

/-- Lazy capture `(.*?)` (or `([\s\S]*?)` when `noNL` is false) up to the
first position where one of the closing alternatives matches; fails when a
newline is hit first under `noNL`. -/
def scanContentF (closers : List Str) (noNL : Bool) : Nat → Str → Option Str
  | 0, s => if closers.any (fun cl => strStartsWithCI cl s) then some [] else none
  | n + 1, s =>
    if closers.any (fun cl => strStartsWithCI cl s) then some []
    else
      match s with
      | [] => none
      | c :: cs =>
        if noNL && isNL c then none
        else
          match scanContentF closers noNL n cs with
          | some content => some (c :: content)
          | none => none

/-- Opening tag `<name[^>]*>` at the head of the text. -/
def tryOpenTag (name : Str) (s : Str) : Option Str :=
  if strStartsWithCI name s then findGt (s.drop name.length) else none

/-- One field match at the head of the text.  When `cdata` is set the
optional `(?:<!\[CDATA\[)?` marker is consumed if present (the optional
group is deterministic here: the closing alternatives cannot begin inside
the marker, so backtracking over it never changes the result). -/
def tryFieldAt (name : Str) (closers : List Str) (cdata noNL : Bool) (s : Str) :
    Option Str :=
  match tryOpenTag name s with
  | none => none
  | some r1 =>
    let r2 := if cdata && strStartsWithCI "<![cdata[".data r1 then r1.drop 9 else r1
    scanContentF closers noNL r2.length r2

/-- First position where the full field regex matches (`String.prototype.match`
without the `g` flag returns the first match). -/
def findFieldF (name : Str) (closers : List Str) (cdata noNL : Bool) :
    Nat → Str → Option Str
  | 0, _ => none
  | n + 1, s =>
    match tryFieldAt name closers cdata noNL s with
    | some content => some content
    | none =>
      match s with
      | [] => none
      | _ :: cs => findFieldF name closers cdata noNL n cs

def findField (name : Str) (closers : List Str) (cdata noNL : Bool) (s : Str) :
    Option Str :=
  findFieldF name closers cdata noNL s.length s

/-! ### Text cleanup (extractRSSEvents, index.ts lines 231-232) -/

/-- Tag stripping `replace(/<[^>]*>/g, '')`: a `<` with no later `>` stays. -/
def stripTagsF : Nat → Str → Str
  | 0, s => s
  | _ + 1, [] => []
  | n + 1, c :: cs =>
    if c = '<' then
      match findGt cs with
      | some rest => stripTagsF n rest
      | none => c :: stripTagsF n cs
    else c :: stripTagsF n cs

def stripTags (s : Str) : Str := stripTagsF s.length s

/-- Position of the first `;`, with the count of characters before it. -/
def findSemi : Str → Option (Nat × Str)
  | [] => none
  | c :: cs =>
    if c = ';' then some (0, cs)
    else
      match findSemi cs with
      | some r => some (r.1 + 1, r.2)
      | none => none

/-- Entity collapsing `replace(/&[^;]+;/g, ' ')`: an `&` followed by at
least one non-semicolon character and a `;` becomes one space. -/
def stripEntitiesF : Nat → Str → Str
  | 0, s => s
  | _ + 1, [] => []
  | n + 1, c :: cs =>
    if c = '&' then
      match findSemi cs with
      | some (k, rest) =>
        if 1 ≤ k then ' ' :: stripEntitiesF n rest
        else c :: stripEntitiesF n cs
      | none => c :: stripEntitiesF n cs
    else c :: stripEntitiesF n cs

def stripEntities (s : Str) : Str := stripEntitiesF s.length s

/-- ASCII model of `String.prototype.trim`. -/
def trimStr (s : Str) : Str :=
  ((s.dropWhile isWSCh).reverse.dropWhile isWSCh).reverse

/-- Cleanup chain applied to title and description: strip tags, collapse
entities, trim. -/
def cleanField (s : Str) : Str := trimStr (stripEntities (stripTags s))

/-! ### Items and candidate events -/

structure RSSItem where
  title : Option Str
  description : Option Str
  link : Option Str
  pubDate : Option Str
deriving DecidableEq, Repr

/-- JavaScript truthiness of an optional string. -/
def jsTruthy (o : Option Str) : Bool :=
  match o with
  | some s => !(s.isEmpty)
  | none => false

/-- Model of `x || dflt` for an optional string field. -/
def jsOr (o : Option Str) (dflt : Str) : Str :=
  match o with
  | some s => if s.isEmpty then dflt else s
  | none => dflt

/-- Model of `s || dflt` for a plain string. -/
def jsOrS (s dflt : Str) : Str := if s.isEmpty then dflt else s

/-- Field extraction for one item block (index.ts lines 174-207): title and
description admit an optional CDATA wrapper and keep their `.trim()`; `guid`
substitutes for a missing or falsy `link`. -/
def parseItem (content : Str) : RSSItem :=
  let title := (findField "<title".data ["]]></title>".data, "</title>".data]
                  true true content).map trimStr
  let desc := (findField "<description".data
                  ["]]></description>".data, "</description>".data]
                  true false content).map trimStr
  let link := (findField "<link".data ["</link>".data] false true content).map trimStr
  let pub := (findField "<pubdate".data ["</pubdate>".data] false true content).map trimStr
  let guid := (findField "<guid".data ["</guid>".data] false true content).map trimStr
  let linkFinal := if jsTruthy link then link else
    match guid with
    | some g => some g
    | none => link
  ⟨title, desc, linkFinal, pub⟩

/-- parseXML: every item block becomes one record; a document with no item
blocks yields the empty list (the enclosing try/catch never fires in this
model because no step throws). -/
def parseXML (xml : Str) : List RSSItem := (extractItems xml).map parseItem

/-- CandidateEvent type (`PotentialEvent` in index.ts).  `location` is never
set by the extractor and stays `none`. -/
structure PotentialEvent where
  title : Str
  description : Str
  link : Str
  published : Str
  location : Option Str
  source_name : Str
  source_url : Str
  event_date : Option JSDate
deriving DecidableEq, Repr

/-- Window check (index.ts lines 153-160): closed interval on `Date`
comparisons; all modelled values are midnights, so day numbers compare. -/
def isEventInDateRange (d startD endD : JSDate) : Bool :=
  decide (toDays startD ≤ toDays d) && decide (toDays d ≤ toDays endD)

/-- Candidate construction for one parsed item (index.ts lines 227-253):
clean the title and description, drop the item unless the cleaned title is
truthy and longer than 5 characters, derive the date, and keep the
candidate when no date was derived or the date lies inside the window. -/
def buildEvent (cy : Int) (parsePub : Str → Option JSDate)
    (sourceUrl sourceName : Str) (startD endD : JSDate) (item : RSSItem) :
    List PotentialEvent :=
  let cleanTitle := cleanField (item.title.getD [])
  let cleanDescription := cleanField (item.description.getD [])
  if !cleanTitle.isEmpty ∧ 5 < cleanTitle.length then
    let pub := item.pubDate.getD []
    let eventDate := extractEventDate cy cleanTitle cleanDescription
      (if pub.isEmpty then none else parsePub pub)
    let ev : PotentialEvent :=
      ⟨cleanTitle, cleanDescription, jsOr item.link sourceUrl, pub, none,
       sourceName, sourceUrl, eventDate⟩
    match eventDate with
    | none => [ev]
    | some d => if isEventInDateRange d startD endD then [ev] else []
  else []

/-- Candidate builder for one feed payload (index.ts lines 218-262), with
the 100-item performance cap.  `parsePub` models the host date-string
parser applied to `pubDate` hints. -/
def extractRSSEvents (cy : Int) (parsePub : Str → Option JSDate)
    (rssXml sourceUrl sourceName : Str) (startD endD : JSDate) :
    List PotentialEvent :=
  ((parseXML rssXml).take 100).flatMap
    (buildEvent cy parsePub sourceUrl sourceName startD endD)

/-! ### Gatekeeper stage (index.ts lines 434-514)

The interaction with the external classification service is summarised by a
`GateOutcome`: missing credential, network failure (`fetch` throws), error
response (`!response.ok`), a message content that `JSON.parse` rejects
(the exception lands in the same catch as a network failure), a parsed JSON
object without a `relevant_events` array (the `|| []` default fires; an
absent message content behaves identically through the
`'{"relevant_events":[]}'` fallback string), and a parsed object carrying
the admitted subset. -/

inductive GateOutcome where
  | noApiKey
  | fetchError
  | httpError
  | contentUnparsable
  | parsedNoKey
  | parsed (relevant_events : List PotentialEvent)
deriving DecidableEq, Repr

/-- Value of `filteredEvents` after the gatekeeper section: it starts as
`allPotentialEvents` and is only reassigned on a successful parse. -/
def gatekeeperStage (o : GateOutcome) (allPotentialEvents : List PotentialEvent) :
    List PotentialEvent :=
  match o with
  | .noApiKey => allPotentialEvents
  | .fetchError => allPotentialEvents
  | .httpError => allPotentialEvents
  | .contentUnparsable => allPotentialEvents
  | .parsedNoKey => []
  | .parsed evs => evs

/-! ### Enrichment stage (index.ts lines 536-637) -/

/-- EnrichedEvent type (`FilteredEvent` in index.ts). -/
structure FilteredEvent where
  event_name : Str
  event_date : JSDate
  event_location : Str
  event_summary : Str
  event_url : Str
  relevance_score : Int
  source_url : Str
  source_name : Str
deriving DecidableEq, Repr

/-- Deterministic fallback synthesis used by all three failure branches of
the enrichment stage (identical map bodies at index.ts lines 599-608,
613-622 and 627-636).  `today` models the date of `Date.now()`; the
`|| new Date(Date.now() + 30*24*60*60*1000)` default is 30 days out. -/
def basicEventFrom (today : JSDate) (e : PotentialEvent) : FilteredEvent :=
  { event_name := e.title
    event_date :=
      match e.event_date with
      | some d => d
      | none => addDays today 30
    event_location := jsOr e.location "Location TBD".data
    event_summary :=
      jsOrS e.description "Marketing opportunity discovered through event scanning".data
    event_url := e.link
    relevance_score := 7
    source_url := e.source_url
    source_name := e.source_name }

/-- Outcome of the enrichment call, in the same style as `GateOutcome`.
A parsed JSON object without an `events` array behaves as `parsed []`
through the `|| []` default and is therefore represented that way. -/
inductive EnrichOutcome where
  | noApiKey
  | fetchError
  | httpError
  | contentUnparsable
  | parsed (events : List FilteredEvent)
deriving DecidableEq, Repr

/-- Value of `finalEvents` after the enrichment section: the parsed service
output is taken as-is (no local validation of any field), every failure
branch maps the gatekeeper survivors through the deterministic fallback. -/
def enrichmentStage (o : EnrichOutcome) (filteredEvents : List PotentialEvent)
    (today : JSDate) : List FilteredEvent :=
  match o with
  | .parsed evs => evs
  | .noApiKey => filteredEvents.map (basicEventFrom today)
  | .fetchError => filteredEvents.map (basicEventFrom today)
  | .httpError => filteredEvents.map (basicEventFrom today)
  | .contentUnparsable => filteredEvents.map (basicEventFrom today)

/-! ### Brief fan-out (index.ts lines 705-758)

`ok e w` models whether the insert of the brief for pair `(e, w)` succeeds;
a failing insert is logged and skipped (`continue`), a thrown error is
caught, and in both cases the loop advances.  The function returns the
value of `briefsCreatedCount` together with the list of attempted
insertions in loop order. -/

structure Winery where
  id : Nat
  winery_name : Str
  location : Str
deriving DecidableEq, Repr

/-- Inner loop over the winery roster for one final event. -/
def fanOutOne (ok : FilteredEvent → Winery → Bool) (e : FilteredEvent) :
    List Winery → Nat × List (FilteredEvent × Winery)
  | [] => (0, [])
  | w :: ws =>
    let r := fanOutOne ok e ws
    ((if ok e w then 1 else 0) + r.1, (e, w) :: r.2)

/-- Outer loop over the final events. -/
def briefFanOut (ok : FilteredEvent → Winery → Bool) :
    List FilteredEvent → List Winery → Nat × List (FilteredEvent × Winery)
  | [], _ => (0, [])
  | e :: es, ws =>
    let a := fanOutOne ok e ws
    let b := briefFanOut ok es ws
    (a.1 + b.1, a.2 ++ b.2)

/-! ### Data-source resolution (index.ts lines 302-410) -/

/-- One row of the `raw_events` ingestion table as read by the scan run. -/
structure RawEventRow where
  id : Nat
  source_url : Str
  source_name : Option Str
  raw_content : Str
  content_length : Nat
  is_processed : Bool
deriving DecidableEq, Repr

/-- Effect of the update `{ is_processed: true }` issued for row id `i` on a
stored row (index.ts lines 375-378): only the flag of the addressed row
changes. -/
def applyMarkProcessed (i : Nat) (r : RawEventRow) : RawEventRow :=
  if r.id = i then { r with is_processed := true } else r

/-- Stored-data loop (index.ts lines 362-383): per row, extract candidates
from its raw content with `source_name || source_url` as label, then issue
one mark-processed update for the row.  The returned list of ids is the
sequence of issued updates.  No step of the loop body before the update can
throw (extractRSSEvents catches internally), so the update is reached for
every row. -/
def processStoredRows (cy : Int) (parsePub : Str → Option JSDate)
    (startD endD : JSDate) : List RawEventRow → List PotentialEvent × List Nat
  | [] => ([], [])
  | r :: rs =>
    let evs := extractRSSEvents cy parsePub r.raw_content r.source_url
      (jsOr r.source_name r.source_url) startD endD
    let rest := processStoredRows cy parsePub startD endD rs
    (evs ++ rest.1, r.id :: rest.2)

/-- One element of the inline `raw_data` array. -/
structure RawDataItem where
  source_url : Str
  raw_content : Str
deriving DecidableEq, Repr

/-- Case-sensitive substring test (`String.prototype.includes`). -/
def containsSubF (pat : Str) : Nat → Str → Bool
  | 0, s => strStartsWith pat s
  | n + 1, s =>
    strStartsWith pat s ||
      match s with
      | [] => false
      | _ :: cs => containsSubF pat n cs

def containsSub (pat s : Str) : Bool := containsSubF pat s.length s

/-- Model of the WHATWG URL parser as used here (`new URL(u).hostname`):
for links of the shape `scheme://host/...` it returns the host (the text
between `://` and the next `/`, `?`, `#` or `:`), lower-cased as the real
parser normalizes it; a link without `://` is treated as invalid (the real
parser throws, which the model reports as `none`). -/
def parseHostname (u : Str) : Option Str :=
  match findCI "://".data u with
  | none => none
  | some (_, rest) =>
    some (lowerStr (rest.takeWhile
      (fun c => !(c = '/' || c = '?' || c = '#' || c = ':'))))

/-- Source label resolution of the inline branch (index.ts lines 313-324).
`none` means the `new URL` call threw, which the per-item catch turns into
skipping the whole item. -/
def resolveSourceName (su : Str) : Option Str :=
  if su.isEmpty then some "Unknown Source".data
  else if containsSub "visitloudoun".data su then some "Visit Loudoun Events".data
  else if containsSub "fxva.com".data su then some "FXVA Events".data
  else if containsSub "virginia.org".data su then some "Virginia Tourism Events".data
  else if containsSub "visitpwc".data su then some "Prince William County Events".data
  else if containsSub "visitfauquier".data su then some "Visit Fauquier Events".data
  else if containsSub "northernvirginiamag".data su then
    some "Northern Virginia Magazine Events".data
  else if containsSub "discoverclarkecounty".data su then
    some "Discover Clarke County Events".data
  else parseHostname su

/-- Inline processing of one `raw_data` element (index.ts lines 311-343). -/
def processRawDataItem (cy : Int) (parsePub : Str → Option JSDate)
    (startD endD : JSDate) (it : RawDataItem) : List PotentialEvent :=
  match resolveSourceName it.source_url with
  | none => []
  | some name =>
    extractRSSEvents cy parsePub it.raw_content it.source_url name startD endD

/-- The two demo events generated when neither inline data nor stored rows
exist (index.ts lines 389-408); their dates are 30 and 14 days out. -/
def sampleEvents (today : JSDate) : List PotentialEvent :=
  [{ title := "Loudoun County Wine & Food Festival".data
     description := ("Annual celebration featuring local wineries, craft " ++
       "breweries, and artisan food vendors. Perfect opportunity for wine " ++
       "tourism and local partnerships.").data
     link := "https://visitloudoun.org/events/wine-food-festival".data
     published := []
     location := none
     source_name := "Visit Loudoun".data
     source_url := "https://visitloudoun.org".data
     event_date := some (addDays today 30) },
   { title := "Fall Harvest Market at Historic Downtown".data
     description := ("Weekly farmers market featuring local produce, artisan " ++
       "goods, and live music. Great venue for wine tastings and community " ++
       "engagement.").data
     link := "https://example.com/harvest-market".data
     published := []
     location := none
     source_name := "Local Events".data
     source_url := "https://example.com".data
     event_date := some (addDays today 14) }]

/-- Data-source resolution of a scan run (index.ts lines 302-410): the
inline branch runs when `raw_data` is a present array, the stored branch
when the ingestion table has unprocessed rows, and otherwise the demo
sample events are generated.  Result: the `dataSource` tag, the candidate
set `allPotentialEvents`, and the ids of issued mark-processed updates.
The `published` field of the two sample events is the full current
timestamp in the source; it is carried as the empty string here because
nothing downstream reads it. -/
def resolveEvents (raw_data : Option (List RawDataItem))
    (stored : List RawEventRow) (cy : Int) (parsePub : Str → Option JSDate)
    (startD endD today : JSDate) : Str × List PotentialEvent × List Nat :=
  match raw_data with
  | some items =>
    ("google_apps_script_direct".data,
     items.flatMap (processRawDataItem cy parsePub startD endD), [])
  | none =>
    match stored with
    | [] => ("sample_events".data, sampleEvents today, [])
    | r :: rs =>
      let p := processStoredRows cy parsePub startD endD (r :: rs)
      ("database_stored".data, p.1, p.2)

/-! ### Asynchronous ingestion push (ingest-raw-events function)

Models the `Deno.serve` handler: payload validation, the empty-events early
return, per-event validation, raw-content synthesis, and batched inserts of
size 50 where a failing batch is logged and skipped.  `batchOk i` models
whether the insert of batch `i` succeeds. -/

structure GEvent where
  title : Str
  link : Str
  description : Str
  pubDate : Str
deriving DecidableEq, Repr

/-- A row handed to the `raw_events` insert. -/
structure RawInsert where
  source_url : Str
  source_name : Str
  raw_content : Str
  is_processed : Bool
deriving DecidableEq, Repr

/-- Source label resolution of the ingestion path (part_002 lines 668-689):
hostname-based mapping with an explicit invalid-URL fallback label. -/
def ingestSourceName (link : Str) : Str :=
  if link.isEmpty then "Unknown Source".data
  else
    match parseHostname link with
    | none => "Invalid URL Source".data
    | some h =>
      if containsSub "visitloudoun".data h then "Visit Loudoun Events".data
      else if containsSub "fxva.com".data h then "FXVA Events".data
      else if containsSub "virginia.org".data h then "Virginia Tourism Events".data
      else if containsSub "visitpwc".data h then "Prince William County Events".data
      else if containsSub "visitfauquier".data h then "Visit Fauquier Events".data
      else if containsSub "northernvirginiamag".data h then
        "Northern Virginia Magazine Events".data
      else if containsSub "discoverclarkecounty".data h then
        "Discover Clarke County Events".data
      else h

/-- Raw-content blob for one pushed event (part_002 lines 663-666). -/
def mkRawContent (e : GEvent) : Str :=
  "Title: ".data ++ e.title ++ "\nDescription: ".data ++ e.description ++
  "\nLink: ".data ++ jsOrS e.link "No link provided".data ++
  "\nPublished: ".data ++ jsOrS e.pubDate "No date provided".data

/-- Validation loop (part_002 lines 647-701): events missing a title or
description, or with a title length outside [5, 500], are counted as
skipped; the rest become insert rows. -/
def validateEvents : List GEvent → List RawInsert × Nat
  | [] => ([], 0)
  | e :: es =>
    let r := validateEvents es
    if e.title.isEmpty || e.description.isEmpty then (r.1, r.2 + 1)
    else if e.title.length < 5 || 500 < e.title.length then (r.1, r.2 + 1)
    else
      (⟨jsOrS e.link "https://google-apps-script-source".data,
        ingestSourceName e.link, mkRawContent e, false⟩ :: r.1, r.2)

/-- Split into batches of 50 (`slice(i, i + 50)` stepping by 50). -/
def chunkBatchesF : Nat → List RawInsert → List (List RawInsert)
  | 0, _ => []
  | _ + 1, [] => []
  | n + 1, l => l.take 50 :: chunkBatchesF n (l.drop 50)

def chunkBatches (l : List RawInsert) : List (List RawInsert) :=
  chunkBatchesF l.length l

/-- Rows actually stored, given which batches succeed. -/
def insertedRowsAux (batchOk : Nat → Bool) :
    Nat → List (List RawInsert) → List RawInsert
  | _, [] => []
  | i, b :: bs =>
    (if batchOk i then b else []) ++ insertedRowsAux batchOk (i + 1) bs

/-- Shape of the handler response; only the fields the claims read are
carried (status code, success flag, `events_processed`). -/
inductive IngestResponse where
  | badRequest
  | emptyEvents
  | noValid (received skipped : Nat)
  | stored (received processed skipped : Nat)
deriving DecidableEq, Repr

def statusCode : IngestResponse → Nat
  | .badRequest => 400
  | _ => 200

def successFlag : IngestResponse → Bool
  | .badRequest => false
  | _ => true

/-- The `events_processed` count reported by the 200 responses (the 400
response carries no such field; 0 is returned for uniformity). -/
def eventsProcessed : IngestResponse → Nat
  | .badRequest => 0
  | .emptyEvents => 0
  | .noValid _ _ => 0
  | .stored _ p _ => p

/-- The ingest handler (part_002 lines 580-809).  `payload` is the `events`
field: `none` when missing or not an array (HTTP 400).  The second
component of the result is the list of batches handed to the store; the
empty-events early return happens before any insert. -/
def ingestRawEvents (payload : Option (List GEvent)) (batchOk : Nat → Bool) :
    IngestResponse × List (List RawInsert) :=
  match payload with
  | none => (.badRequest, [])
  | some evs =>
    if evs.length = 0 then (.emptyEvents, [])
    else
      let v := validateEvents evs
      if v.1.length = 0 then (.noValid evs.length v.2, [])
      else
        let batches := chunkBatches v.1
        (.stored evs.length (insertedRowsAux batchOk 0 batches).length v.2, batches)

/-! ### Concrete sample values used by witnesses and counterexamples -/

/-- Date of 2025-10-11, a stand-in for the current date. -/
def today0 : JSDate := ⟨2025, 9, 11⟩

def window0Start : JSDate := ⟨2025, 0, 1⟩

def window0End : JSDate := ⟨2025, 11, 31⟩

/-- Published-date parser that accepts nothing. -/
def noPub : Str → Option JSDate := fun _ => none

def demoCandidate : PotentialEvent :=
  ⟨"Autumn Art Festival".data, "community art show".data,
   "https://example.com/e".data, [], none, "Local Events".data,
   "https://example.com".data, none⟩

def emptyDescCandidate : PotentialEvent :=
  ⟨"Harvest Parade".data, [], "https://example.com/p".data, [], none,
   "Local Events".data, "https://example.com".data, none⟩

def lowScoreEvent : FilteredEvent :=
  ⟨"Generic Meetup".data, ⟨2025, 10, 5⟩, "Leesburg".data,
   "small gathering".data, "https://example.com/m".data, 3,
   "https://example.com".data, "Local Events".data⟩

def demoWinery : Winery := ⟨1, "Test Winery".data, "Leesburg".data⟩

def feSeven : FilteredEvent :=
  ⟨"Spring Fair".data, ⟨2025, 4, 1⟩, "Town Green".data, "big fair".data,
   "https://example.com/f".data, 7, "https://example.com".data,
   "Local Events".data⟩

def feFour : FilteredEvent :=
  ⟨"Tiny Expo".data, ⟨2025, 5, 2⟩, "Hall".data, "expo".data,
   "https://example.com/x".data, 4, "https://example.com".data,
   "Local Events".data⟩

/-- Insert outcome that succeeds exactly on score-7 events. -/
def okOnlySeven : FilteredEvent → Winery → Bool := fun e _ => e.relevance_score == 7

def galaXml : Str := "<item><title>gala 3/15/2025</title></item>".data

def galaCandidate : PotentialEvent :=
  ⟨"gala 3/15/2025".data, [], "su".data, [], none, "sn".data, "su".data,
   some ⟨2025, 2, 15⟩⟩

def harvestXml : Str := "<item><title>harvest festival</title></item>".data

def harvestCandidate : PotentialEvent :=
  ⟨"harvest festival".data, [], "su".data, [], none, "sn".data, "su".data, none⟩

def xmlLongTitle : Str :=
  "<item><title>".data ++ List.replicate 501 'a' ++ "</title></item>".data

def longTitleCandidate : PotentialEvent :=
  ⟨List.replicate 501 'a', [], "su".data, [], none, "sn".data, "su".data, none⟩

def demoRow : RawEventRow := ⟨1, "https://example.com".data, none, "hello".data, 5, false⟩

/-! ### Helper lemmas -/

theorem isValidEventDate_iff (cy : Int) (d : JSDate) :
    isValidEventDate cy d = true ↔
      cy ≤ d.year ∧ d.year ≤ cy + 2 ∧ 0 ≤ d.month ∧ d.month ≤ 11 ∧
        1 ≤ d.day ∧ d.day ≤ 31 := by
  simp [isValidEventDate, and_assoc]

theorem firstValidDate_valid (cy : Int) :
    ∀ (l : List DateCand) (d : JSDate),
      firstValidDate cy l = some d → isValidEventDate cy d = true := by
  intro l
  induction l with
  | nil => intro d h; simp [firstValidDate] at h
  | cons c cs ih =>
    intro d h
    simp only [firstValidDate] at h
    split at h
    next hv => cases h; exact hv
    next => exact ih d h

theorem firstValidAcross_valid (cy : Int) :
    ∀ (ls : List (List DateCand)) (d : JSDate),
      firstValidAcross cy ls = some d → isValidEventDate cy d = true := by
  intro ls
  induction ls with
  | nil => intro d h; simp [firstValidAcross] at h
  | cons l ls ih =>
    intro d h
    simp only [firstValidAcross] at h
    split at h
    next d' hd' => cases h; exact firstValidDate_valid cy l d hd'
    next => exact ih d h

theorem findTextDate_valid (cy : Int) (text : Str) (d : JSDate)
    (h : findTextDate cy text = some d) : isValidEventDate cy d = true :=
  firstValidAcross_valid cy _ d h

theorem buildEvent_mem_props {cy : Int} {parsePub : Str → Option JSDate}
    {sourceUrl sourceName : Str} {startD endD : JSDate} {item : RSSItem}
    {ev : PotentialEvent}
    (h : ev ∈ buildEvent cy parsePub sourceUrl sourceName startD endD item) :
    5 < ev.title.length ∧
      ∀ d, ev.event_date = some d →
        toDays startD ≤ toDays d ∧ toDays d ≤ toDays endD := by
  simp only [buildEvent] at h
  split at h
  case isTrue hcond =>
    split at h
    case h_1 heq =>
      simp only [List.mem_singleton] at h
      subst h
      refine ⟨hcond.2, ?_⟩
      intro d hd
      simp only at hd
      rw [heq] at hd
      cases hd
    case h_2 d' heq =>
      split at h
      case isTrue hrange =>
        simp only [List.mem_singleton] at h
        subst h
        refine ⟨hcond.2, ?_⟩
        intro d hd
        simp only at hd
        rw [heq] at hd
        cases hd
        simpa [isEventInDateRange, and_assoc] using hrange
      case isFalse => simp at h
  case isFalse => simp at h

theorem length_filter_not_pair (ok : FilteredEvent → Winery → Bool) :
    ∀ l : List (FilteredEvent × Winery),
      (l.filter (fun p => ok p.1 p.2)).length +
        (l.filter (fun p => !(ok p.1 p.2))).length = l.length := by
  intro l
  induction l with
  | nil => rfl
  | cons p ps ih =>
    simp only [List.filter_cons]
    cases h : ok p.1 p.2 <;> simp [h, List.length_cons] <;> omega

theorem fanOutOne_length (ok : FilteredEvent → Winery → Bool) (e : FilteredEvent) :
    ∀ ws : List Winery, (fanOutOne ok e ws).2.length = ws.length := by
  intro ws
  induction ws with
  | nil => rfl
  | cons w ws ih => simp [fanOutOne, ih]

theorem fanOutOne_count (ok : FilteredEvent → Winery → Bool) (e : FilteredEvent) :
    ∀ ws : List Winery,
      (fanOutOne ok e ws).1 =
        ((fanOutOne ok e ws).2.filter (fun p => ok p.1 p.2)).length := by
  intro ws
  induction ws with
  | nil => rfl
  | cons w ws ih =>
    simp only [fanOutOne, List.filter_cons]
    cases h : ok e w
    · simp [h, ih]
    · simp [h, ih]
      omega

theorem briefFanOut_length (ok : FilteredEvent → Winery → Bool) (ws : List Winery) :
    ∀ es : List FilteredEvent,
      (briefFanOut ok es ws).2.length = es.length * ws.length := by
  intro es
  induction es with
  | nil => simp [briefFanOut]
  | cons e es ih =>
    simp only [briefFanOut, List.length_append, fanOutOne_length, ih,
      List.length_cons]
    ring

theorem briefFanOut_count (ok : FilteredEvent → Winery → Bool) (ws : List Winery) :
    ∀ es : List FilteredEvent,
      (briefFanOut ok es ws).1 =
        ((briefFanOut ok es ws).2.filter (fun p => ok p.1 p.2)).length := by
  intro es
  induction es with
  | nil => rfl
  | cons e es ih =>
    simp only [briefFanOut, List.filter_append, List.length_append]
    rw [fanOutOne_count, ih]

theorem processStoredRows_ids (cy : Int) (parsePub : Str → Option JSDate)
    (startD endD : JSDate) :
    ∀ rows : List RawEventRow,
      (processStoredRows cy parsePub startD endD rows).2 =
        rows.map (fun r => r.id) := by
  intro rows
  induction rows with
  | nil => rfl
  | cons r rs ih => simp [processStoredRows, ih]

/-! ### Claim theorems -/

/-- C1 (amended): when the classification service credential is missing,
the service call throws, the response is an error, or the message content
is not parseable as JSON, the gatekeeper passes the entire candidate set
through unchanged; but a response that parses as JSON without a
`relevant_events` array yields the empty candidate set instead. -/
theorem gatekeeper_fail_open (evs : List PotentialEvent) :
    gatekeeperStage GateOutcome.noApiKey evs = evs ∧
    gatekeeperStage GateOutcome.fetchError evs = evs ∧
    gatekeeperStage GateOutcome.httpError evs = evs ∧
    gatekeeperStage GateOutcome.contentUnparsable evs = evs ∧
    gatekeeperStage GateOutcome.parsedNoKey evs = [] :=
  ⟨rfl, rfl, rfl, rfl, rfl⟩

/-- C1 counterexample: a service output that parses as JSON but cannot be
read as the expected structure (no `relevant_events` array) does not pass
the candidate set through: a one-candidate run comes out empty. -/
theorem gatekeeper_wrong_shape_not_passthrough :
    gatekeeperStage GateOutcome.parsedNoKey [demoCandidate] = [] ∧
    gatekeeperStage GateOutcome.parsedNoKey [demoCandidate] ≠ [demoCandidate] :=
  ⟨rfl, by decide⟩

/-- C2: with N final events and M wineries (M ≥ 1), the fan-out attempts
exactly N×M insertions, and `briefs_created` is N×M minus the number of
failing insertions; the loop itself is total, so no failure aborts it. -/
theorem brief_fanout_counts (finalEvents : List FilteredEvent)
    (wineries : List Winery) (ok : FilteredEvent → Winery → Bool)
    (_hM : 1 ≤ wineries.length) :
    (briefFanOut ok finalEvents wineries).2.length =
      finalEvents.length * wineries.length ∧
    (briefFanOut ok finalEvents wineries).1 =
      finalEvents.length * wineries.length -
        ((briefFanOut ok finalEvents wineries).2.filter
          (fun p => !(ok p.1 p.2))).length := by
  have h1 := briefFanOut_length ok wineries finalEvents
  have h2 := briefFanOut_count ok wineries finalEvents
  have h3 := length_filter_not_pair ok (briefFanOut ok finalEvents wineries).2
  exact ⟨h1, by omega⟩

/-- C2 witness: two events, one winery, one failing insertion. -/
theorem brief_fanout_counts_witness :
    (briefFanOut okOnlySeven [feSeven, feFour] [demoWinery]).2.length =
      [feSeven, feFour].length * [demoWinery].length ∧
    (briefFanOut okOnlySeven [feSeven, feFour] [demoWinery]).1 =
      [feSeven, feFour].length * [demoWinery].length -
        ((briefFanOut okOnlySeven [feSeven, feFour] [demoWinery]).2.filter
          (fun p => !(okOnlySeven p.1 p.2))).length :=
  brief_fanout_counts [feSeven, feFour] [demoWinery] okOnlySeven (by decide)

/-- C3: every candidate produced by the candidate builder for any feed
payload and window either carries no derived date, or carries a date inside
the closed window [startD, endD]. -/
theorem candidates_within_window (cy : Int) (parsePub : Str → Option JSDate)
    (xml sourceUrl sourceName : Str) (startD endD : JSDate) :
    ∀ ev ∈ extractRSSEvents cy parsePub xml sourceUrl sourceName startD endD,
      ∀ d, ev.event_date = some d →
        toDays startD ≤ toDays d ∧ toDays d ≤ toDays endD := by
  intro ev hev d hd
  unfold extractRSSEvents at hev
  rcases List.mem_flatMap.mp hev with ⟨item, _, hmem⟩
  exact (buildEvent_mem_props hmem).2 d hd

/-- C3 witness: the dated candidate extracted from a concrete feed lies in
the window. -/
theorem candidates_within_window_witness :
    toDays window0Start ≤ toDays (⟨2025, 2, 15⟩ : JSDate) ∧
    toDays (⟨2025, 2, 15⟩ : JSDate) ≤ toDays window0End :=
  candidates_within_window 2025 noPub galaXml "su".data "sn".data
    window0Start window0End galaCandidate (by decide) ⟨2025, 2, 15⟩ rfl

/-- C4 (amended): with no inline raw data and no unprocessed stored rows,
the run reports the `sample_events` data-source tag but does not extract
zero events: it injects the two built-in demo events, which then flow
through the rest of the pipeline. -/
theorem no_data_sample_branch (cy : Int) (parsePub : Str → Option JSDate)
    (startD endD today : JSDate) :
    resolveEvents none [] cy parsePub startD endD today =
      ("sample_events".data, sampleEvents today, []) ∧
    (sampleEvents today).length = 2 :=
  ⟨rfl, rfl⟩

/-- C4 counterexample: on the none-found path the run reports the
`sample_events` tag yet its candidate set is not empty. -/
theorem no_data_branch_yields_nonzero_events :
    (resolveEvents none [] 2025 noPub window0Start window0End today0).1 =
      "sample_events".data ∧
    (resolveEvents none [] 2025 noPub window0Start window0End today0).2.1.length ≠ 0 :=
  ⟨rfl, by decide⟩

/-- C5 (amended): every event synthesized by the deterministic enrichment
fallback has relevance_score exactly 7 (so the ≥ 6 floor holds on that
path), but the parsed output of the external service is passed to fan-out
with no local score validation, so the floor depends on service
compliance. -/
theorem enrichment_score_floor (today : JSDate)
    (filtered : List PotentialEvent) (l : List FilteredEvent) :
    (∀ e, (basicEventFrom today e).relevance_score = 7) ∧
    enrichmentStage EnrichOutcome.noApiKey filtered today =
      filtered.map (basicEventFrom today) ∧
    enrichmentStage EnrichOutcome.fetchError filtered today =
      filtered.map (basicEventFrom today) ∧
    enrichmentStage (EnrichOutcome.parsed l) filtered today = l :=
  ⟨fun _ => rfl, rfl, rfl, rfl⟩

/-- C5 counterexample: a service-produced event with relevance_score 3
reaches the fan-out loop unfiltered. -/
theorem low_score_event_reaches_fanout :
    enrichmentStage (EnrichOutcome.parsed [lowScoreEvent]) [] today0 =
      [lowScoreEvent] ∧
    (briefFanOut (fun _ _ => true)
        (enrichmentStage (EnrichOutcome.parsed [lowScoreEvent]) [] today0)
        [demoWinery]).2 = [(lowScoreEvent, demoWinery)] ∧
    lowScoreEvent.relevance_score < 6 :=
  ⟨rfl, rfl, by decide⟩

/-- C6: a date taken from the text is accepted only when the constructed
calendar date has year in [currentYear, currentYear + 2], month index in
[0, 11] and day in [1, 31]; when no in-text date validates, the
published-date hint is used exactly when its year is at least
currentYear − 1, and otherwise the heuristic returns none; and with
current year 2025 the input title `3/15/2025` yields 2025-03-15 (month
index 2). -/
theorem extractEventDate_spec (cy : Int) (title description : Str)
    (pub : Option JSDate) :
    (∀ d, findTextDate cy (lowerStr (title ++ ' ' :: description)) = some d →
        cy ≤ d.year ∧ d.year ≤ cy + 2 ∧ 0 ≤ d.month ∧ d.month ≤ 11 ∧
          1 ≤ d.day ∧ d.day ≤ 31) ∧
    (findTextDate cy (lowerStr (title ++ ' ' :: description)) = none →
      extractEventDate cy title description pub =
        match pub with
        | some d => if cy - 1 ≤ d.year then some d else none
        | none => none) ∧
    extractEventDate 2025 "3/15/2025".data [] none = some ⟨2025, 2, 15⟩ := by
  refine ⟨?_, ?_, by decide⟩
  · intro d hd
    exact (isValidEventDate_iff cy d).mp (findTextDate_valid cy _ d hd)
  · intro h0
    simp only [extractEventDate]
    rw [h0]

/-- C6 witness: the bounds instantiated at the concrete match of the
`3/15/2025` example. -/
theorem extractEventDate_spec_witness :
    (2025 : Int) ≤ 2025 ∧ (2025 : Int) ≤ 2025 + 2 ∧ (0 : Int) ≤ 2 ∧
      (2 : Int) ≤ 11 ∧ (1 : Int) ≤ 15 ∧ (15 : Int) ≤ 31 :=
  (extractEventDate_spec 2025 "3/15/2025".data [] none).1 ⟨2025, 2, 15⟩
    (by decide)

/-- C7 (amended): an item yields a candidate only if its cleaned title is
strictly longer than 5 characters; no upper bound is enforced by the
candidate builder (the [5, 500] title bound is applied on the asynchronous
ingestion path instead). -/
theorem candidate_title_min_length (cy : Int) (parsePub : Str → Option JSDate)
    (xml sourceUrl sourceName : Str) (startD endD : JSDate) :
    ∀ ev ∈ extractRSSEvents cy parsePub xml sourceUrl sourceName startD endD,
      5 < ev.title.length := by
  intro ev hev
  unfold extractRSSEvents at hev
  rcases List.mem_flatMap.mp hev with ⟨item, _, hmem⟩
  exact (buildEvent_mem_props hmem).1

/-- C7 witness: a concrete item with an in-range title appears and has
length above 5. -/
theorem candidate_title_min_length_witness : 5 < harvestCandidate.title.length :=
  candidate_title_min_length 2025 noPub harvestXml "su".data "sn".data
    window0Start window0End harvestCandidate (by decide)

set_option maxRecDepth 40000 in
/-- C7 counterexample: an item whose cleaned title is 501 characters long
appears in the candidate set, refuting the 500-character upper bound. -/
theorem long_title_candidate_exists :
    extractRSSEvents 2025 noPub xmlLongTitle "su".data "sn".data
      window0Start window0End = [longTitleCandidate] ∧
    500 < longTitleCandidate.title.length :=
  ⟨by decide, by decide⟩

/-- C8 (amended): every enrichment failure branch maps each gatekeeper
survivor through the deterministic fallback, which copies title to
event_name and link to event_url, sets relevance_score 7, uses the
upstream-derived date or a date 30 days out, and copies the description to
event_summary except that an empty description becomes a fixed placeholder
string. -/
theorem enrichment_fallback_mapping (today : JSDate)
    (filtered : List PotentialEvent) :
    enrichmentStage EnrichOutcome.fetchError filtered today =
      filtered.map (basicEventFrom today) ∧
    enrichmentStage EnrichOutcome.httpError filtered today =
      filtered.map (basicEventFrom today) ∧
    enrichmentStage EnrichOutcome.contentUnparsable filtered today =
      filtered.map (basicEventFrom today) ∧
    enrichmentStage EnrichOutcome.noApiKey filtered today =
      filtered.map (basicEventFrom today) ∧
    ∀ e : PotentialEvent,
      (basicEventFrom today e).event_name = e.title ∧
      (basicEventFrom today e).event_summary =
        (if e.description.isEmpty then
          "Marketing opportunity discovered through event scanning".data
         else e.description) ∧
      (basicEventFrom today e).event_url = e.link ∧
      (basicEventFrom today e).relevance_score = 7 ∧
      (basicEventFrom today e).event_date =
        (match e.event_date with
         | some d => d
         | none => addDays today 30) := by
  refine ⟨rfl, rfl, rfl, rfl, ?_⟩
  intro e
  refine ⟨rfl, ?_, rfl, rfl, rfl⟩
  simp [basicEventFrom, jsOrS]

/-- C8 counterexample: a surviving candidate with an empty description is
not mapped to an enriched event whose summary equals that description; the
fallback substitutes the placeholder string. -/
theorem fallback_summary_not_description :
    (enrichmentStage EnrichOutcome.fetchError [emptyDescCandidate] today0).map
        (fun ev => ev.event_summary) ≠ [emptyDescCandidate.description] := by
  decide

/-- C9: the stored-data loop issues exactly one mark-processed update per
row read (in row order, also for rows whose extraction yields zero
candidates), and that update changes no field other than the processed
flag. -/
theorem stored_rows_marked_once (cy : Int) (parsePub : Str → Option JSDate)
    (startD endD : JSDate) (rows : List RawEventRow) :
    (processStoredRows cy parsePub startD endD rows).2 =
      rows.map (fun r => r.id) ∧
    ((rows.map (fun r => r.id)).Nodup →
      ∀ r ∈ rows,
        ((processStoredRows cy parsePub startD endD rows).2.count r.id) = 1) ∧
    ∀ (i : Nat) (r : RawEventRow),
      (applyMarkProcessed i r).id = r.id ∧
      (applyMarkProcessed i r).source_url = r.source_url ∧
      (applyMarkProcessed i r).source_name = r.source_name ∧
      (applyMarkProcessed i r).raw_content = r.raw_content ∧
      (applyMarkProcessed i r).content_length = r.content_length ∧
      (r.id = i → (applyMarkProcessed i r).is_processed = true) := by
  refine ⟨processStoredRows_ids cy parsePub startD endD rows, ?_, ?_⟩
  · intro hnd r hr
    rw [processStoredRows_ids]
    exact List.count_eq_one_of_mem hnd (List.mem_map_of_mem _ hr)
  · intro i r
    unfold applyMarkProcessed
    by_cases h : r.id = i
    · simp [h]
    · simp [h]

/-- C9 witness: a single stored row whose content yields zero candidates is
still marked exactly once. -/
theorem stored_rows_marked_once_witness :
    ((processStoredRows 2025 noPub window0Start window0End [demoRow]).2.count
      demoRow.id) = 1 :=
  (stored_rows_marked_once 2025 noPub window0Start window0End [demoRow]).2.1
    (by decide) demoRow (by decide)

/-- C10: an ingestion push whose events field is present and empty returns
HTTP 200 with success, reports zero events processed, and hands no batch to
the store. -/
theorem ingest_empty_events (batchOk : Nat → Bool) :
    ingestRawEvents (some []) batchOk = (IngestResponse.emptyEvents, []) ∧
    statusCode IngestResponse.emptyEvents = 200 ∧
    successFlag IngestResponse.emptyEvents = true ∧
    eventsProcessed IngestResponse.emptyEvents = 0 :=
  ⟨rfl, rfl, rfl, rfl⟩
